import Mathlib

/-!
Formal model of the `truelist-react` email-validation library.

The development shallowly embeds the TypeScript sources:

* `src/types.ts` — the data model (`ValidationState`, `ValidationResult`,
  `TruelistConfig`).
* `src/client.ts` — the error classification of `verifyEmail`
  (lines 44-63): a non-OK HTTP response is turned into a
  `TruelistApiError` whose message depends on the status code.
* `src/zod.ts` — the refine callback of `truelistEmail`, modelled as a
  function of the outcome of the underlying `verifyEmail` call; a thrown
  error is represented by `Except.error`, and the callback's own
  behaviour (it catches everything and returns `true`) by the value it
  produces.
* `src/provider.tsx` — `useTruelistConfig`, modelled as a function of the
  context value (`Option TruelistConfig`); throwing is `Except.error`.
* `src/use-email-validation.ts` — the debounced, cancellable validation
  controller, modelled as a state machine.  The single-threaded
  JavaScript event loop is modelled by a step function over explicit
  events: a call to `validate`, the firing of the pending debounce
  timer, the settlement of an issued request (atomic with the execution
  of its `.then`/`.catch` handler, as in the event loop, where the
  microtask that runs the handler is not interleaved with other tasks),
  a call to `reset`, and the unmount cleanup.  The network is
  adversarial: a settlement may carry any outcome, constrained only by
  the `fetch`/`AbortSignal` contract that a request whose controller was
  aborted can only reject with an "AbortError" `DOMException` (it may
  also have resolved before the abort; it can never deliver a different
  error on behalf of an aborted controller).
-/

namespace Truelist

/-- Primary validation state returned by the Truelist API (types.ts). -/
inductive ValidationState
  | ok
  | email_invalid
  | risky
  | accept_all
  | unknown
deriving DecidableEq, Repr

/-- Detailed sub-state of a validation result (types.ts). -/
inductive ValidationSubState
  | email_ok
  | is_disposable
  | is_role
  | failed_smtp_check
  | failed_mx_check
  | failed_spam_trap
  | failed_no_mailbox
  | failed_greylisted
  | failed_syntax_check
  | unknown_error
deriving DecidableEq, Repr

/-- The result object returned after validating an email address (types.ts). -/
structure ValidationResult where
  state : ValidationState
  subState : ValidationSubState
  email : String
  domain : String
  canonical : String
  mxRecord : Option String
  firstName : Option String
  lastName : Option String
  verifiedAt : String
  suggestion : Option String
deriving DecidableEq, Repr

/-- Configuration for the Truelist provider and API client (types.ts). -/
structure TruelistConfig where
  apiKey : String
  baseUrl : Option String
deriving DecidableEq, Repr

/-- The classified error thrown by the API client (client.ts):
a message and an optional HTTP status. -/
structure TruelistApiError where
  message : String
  status : Option Nat
deriving DecidableEq, Repr

/-- The part of an HTTP response that `verifyEmail` inspects before
reading the body (client.ts). -/
structure HttpResponse where
  ok : Bool
  status : Nat
  statusText : String
deriving DecidableEq, Repr

/-- Message thrown for an HTTP 429 response (client.ts line 47). -/
def rateLimitMessage : String :=
  "Rate limit exceeded. The form API allows 60 requests per minute."

/-- Message thrown for an HTTP 401 response (client.ts line 54). -/
def invalidKeyMessage : String :=
  "Invalid API key. Check your Truelist form API key."

/-- Message thrown for any other non-OK response (client.ts line 60). -/
def genericMessage (status : Nat) (statusText : String) : String :=
  "Truelist API error: " ++ toString status ++ " " ++ statusText

/-- Error classification of `verifyEmail` (client.ts lines 44-63): `none`
when the response is OK (no error thrown), otherwise the
`TruelistApiError` thrown for that status. -/
def verifyEmailError (response : HttpResponse) : Option TruelistApiError :=
  if response.ok then none
  else if response.status = 429 then some ⟨rateLimitMessage, some 429⟩
  else if response.status = 401 then some ⟨invalidKeyMessage, some 401⟩
  else some ⟨genericMessage response.status response.statusText, some response.status⟩

/-- Outcome of one `verifyEmail` call, as consumed by its callers:
either the parsed result or the thrown `TruelistApiError`. -/
abbrev VerifyOutcome := Except TruelistApiError ValidationResult

/-- The refine callback of `truelistEmail` (zod.ts lines 54-68), as a
function of the outcome of the `verifyEmail` call it awaits.  The value
`Except.ok b` means the callback returned the boolean `b`;
`Except.error e` would mean it let the error `e` propagate (reject).
The source wraps the whole body in `try ... catch` and returns `true`
from the catch, so no outcome ever produces `Except.error`. -/
def truelistEmailRefineRun (rejectStates : List ValidationState)
    (outcome : VerifyOutcome) : Except TruelistApiError Bool :=
  match outcome with
  | .ok result => .ok (!(rejectStates.contains result.state))
  | .error _ => .ok true

/-- Error message thrown by `useTruelistConfig` outside a provider
(provider.tsx lines 54-57). -/
def providerErrorMessage : String :=
  "useTruelistConfig must be used within a <TruelistProvider>. " ++
    "Wrap your component tree with <TruelistProvider apiKey=\"...\">."

/-- Model of `useTruelistConfig` (provider.tsx lines 50-61) as a function
of the context value: the context is `none` outside a
`TruelistProvider`; throwing is modelled by `Except.error`. -/
def useTruelistConfig (ctx : Option TruelistConfig) :
    Except String TruelistConfig :=
  match ctx with
  | none => .error providerErrorMessage
  | some config => .ok config

/-- Options of `useEmailValidation` that affect control flow; the
callbacks are modelled as outputs of the step function.  `none` for
`debounceMs` means the option was omitted. -/
structure UseEmailValidationOptions where
  debounceMs : Option Nat
deriving DecidableEq, Repr

/-- Destructuring default `debounceMs = 500` (use-email-validation.ts
line 54). -/
def resolvedDebounceMs (options : UseEmailValidationOptions) : Nat :=
  options.debounceMs.getD 500

/-- A JavaScript value caught by the `.catch` handler of the hook. -/
inductive JsError
  | domException (name : String)
  | apiError (e : TruelistApiError)
  | other
deriving DecidableEq, Repr

/-- The test `err instanceof DOMException && err.name === "AbortError"`
(use-email-validation.ts line 103). -/
def isAbortError : JsError → Bool
  | .domException name => name = "AbortError"
  | _ => false

/-- Fallback error message of the hook (use-email-validation.ts
line 110). -/
def fallbackMessage : String :=
  "Email validation failed. Please try again."

/-- The expression `err instanceof TruelistApiError ? err.message : ...`
(use-email-validation.ts lines 107-110). -/
def errorMessageOf : JsError → String
  | .apiError e => e.message
  | _ => fallbackMessage

/-- Settlement outcome of an issued request: the fetch promise either
resolves with a `ValidationResult` or rejects with some value. -/
inductive Outcome
  | success (res : ValidationResult)
  | failure (err : JsError)
deriving DecidableEq, Repr

/-- Observable effects of a step: a network request being issued, and the
`onResult` / `onError` callbacks firing. -/
inductive Out
  | requestIssued (email : String)
  | onResult (res : ValidationResult)
  | onError (message : String)
deriving DecidableEq, Repr

/-- State of one mounted `useEmailValidation` hook.  `result`, `error`
and `isValidating` are the observable React state; `pendingTimer` is the
scheduled debounce execution (email and delay); `currentReq` is
`abortControllerRef.current` as the id of the request it belongs to;
`inflight` lists issued, unsettled request ids; `abortedIds` lists ids
of requests whose `AbortController.abort()` was called; `nextReqId`
supplies fresh ids; `disposed` is set by the unmount cleanup. -/
structure HookState where
  result : Option ValidationResult
  error : Option String
  isValidating : Bool
  pendingTimer : Option (String × Nat)
  currentReq : Option Nat
  inflight : List Nat
  abortedIds : List Nat
  nextReqId : Nat
  disposed : Bool
deriving DecidableEq, Repr

/-- Initial state of a freshly mounted hook. -/
def initState : HookState :=
  { result := none, error := none, isValidating := false,
    pendingTimer := none, currentReq := none, inflight := [],
    abortedIds := [], nextReqId := 0, disposed := false }

/-- The `run` closure of `validate` (use-email-validation.ts lines
80-116, up to the issuing of the request): abort any in-flight request,
install a fresh AbortController, set `isValidating`, clear `error`, and
issue the request. -/
def runRequest (email : String) (s : HookState) : HookState × List Out :=
  match s.currentReq with
  | some r =>
    ({ s with
        abortedIds := r :: s.abortedIds
        currentReq := some s.nextReqId
        inflight := s.nextReqId :: s.inflight
        nextReqId := s.nextReqId + 1
        isValidating := true
        error := none },
      [Out.requestIssued email])
  | none =>
    ({ s with
        currentReq := some s.nextReqId
        inflight := s.nextReqId :: s.inflight
        nextReqId := s.nextReqId + 1
        isValidating := true
        error := none },
      [Out.requestIssued email])

/-- The `validate` callback (use-email-validation.ts lines 64-125):
clear any pending debounce; on an empty or @-less email (the test
`!email || !email.includes("@")`, written here as membership of the
character `'@'` in the string's characters) synchronously clear state
and return; otherwise schedule `run` after `debounceMs` milliseconds,
or call it directly when `debounceMs` is 0. -/
def validate (debounceMs : Nat) (email : String) (s : HookState) :
    HookState × List Out :=
  let s := { s with pendingTimer := none }
  if email = "" ∨ '@' ∉ email.data then
    ({ s with result := none, error := none, isValidating := false }, [])
  else if 0 < debounceMs then
    ({ s with pendingTimer := some (email, debounceMs) }, [])
  else
    runRequest email s

/-- The pending debounce timer fires: `run` executes for the scheduled
email.  Only the currently scheduled timer can fire (`clearTimeout` on
every newer `validate`, `reset` and the unmount cleanup is modelled by
overwriting or clearing `pendingTimer`). -/
def timerFire (s : HookState) : Option (HookState × List Out) :=
  match s.pendingTimer with
  | none => none
  | some (email, _) => some (runRequest email { s with pendingTimer := none })

/-- The `.then` / `.catch` handlers of the issued request
(use-email-validation.ts lines 93-115), run when the request settles. -/
def handleSettlement (reqId : Nat) (outcome : Outcome) (s : HookState) :
    HookState × List Out :=
  match outcome with
  | .success res =>
    if reqId ∈ s.abortedIds then (s, [])
    else
      ({ s with result := some res, isValidating := false },
        [Out.onResult res])
  | .failure err =>
    if isAbortError err then (s, [])
    else
      let message := errorMessageOf err
      ({ s with error := some message, isValidating := false },
        [Out.onError message])

/-- The `fetch`/`AbortSignal` contract: a request whose controller was
aborted can only settle by rejecting with an "AbortError"
`DOMException` (or it may already have resolved before the abort); it
never delivers a different rejection once aborted. -/
def settleAllowed (s : HookState) (reqId : Nat) : Outcome → Bool
  | .success _ => true
  | .failure err => !(decide (reqId ∈ s.abortedIds)) || isAbortError err

/-- Settlement of request `reqId` with `outcome`: enabled only for an
issued, unsettled request and an outcome the fetch contract permits;
the handler then runs atomically (the event loop does not interleave
other tasks between a promise settling and its handler microtask). -/
def settle (reqId : Nat) (outcome : Outcome) (s : HookState) :
    Option (HookState × List Out) :=
  if reqId ∈ s.inflight then
    if settleAllowed s reqId outcome then
      some (handleSettlement reqId outcome
        { s with inflight := s.inflight.filter (fun i => decide (i ≠ reqId)) })
    else none
  else none

/-- The `reset` callback (use-email-validation.ts lines 127-139): clear
the pending debounce timer, abort the in-flight request and null the
ref, clear result, error and the validating flag. -/
def reset (s : HookState) : HookState × List Out :=
  match s.currentReq with
  | some r =>
    ({ s with
        pendingTimer := none
        abortedIds := r :: s.abortedIds
        currentReq := none
        result := none
        error := none
        isValidating := false }, [])
  | none =>
    ({ s with
        pendingTimer := none
        result := none
        error := none
        isValidating := false }, [])

/-- The unmount cleanup (use-email-validation.ts lines 142-151): clear
the pending debounce timer and abort the in-flight request.  It does not
touch the React state and does not null the ref. -/
def dispose (s : HookState) : HookState × List Out :=
  match s.currentReq with
  | some r =>
    ({ s with
        pendingTimer := none
        abortedIds := r :: s.abortedIds
        disposed := true }, [])
  | none =>
    ({ s with pendingTimer := none, disposed := true }, [])

/-- Events of the controller's environment: the consumer calling
`validate` or `reset`, the debounce timer firing, a request settling,
and the unmount cleanup.  Consumer calls and timer firings are only
possible while the hook is mounted; settlements of already-issued
requests can still occur afterwards. -/
inductive Event
  | trigger (email : String)
  | fire
  | settleEv (reqId : Nat) (outcome : Outcome)
  | resetEv
  | disposeEv
deriving DecidableEq, Repr

/-- One step of the controller: `none` when the event is not enabled in
state `s`. -/
def step (debounceMs : Nat) (s : HookState) : Event → Option (HookState × List Out)
  | .trigger email => if s.disposed then none else some (validate debounceMs email s)
  | .fire => if s.disposed then none else timerFire s
  | .settleEv reqId outcome => settle reqId outcome s
  | .resetEv => if s.disposed then none else some (reset s)
  | .disposeEv => if s.disposed then none else some (dispose s)

/-- Run a sequence of events, collecting the emitted outputs; `none` when
some event in the sequence is not enabled. -/
def runTrace (debounceMs : Nat) (s : HookState) :
    List Event → Option (HookState × List Out)
  | [] => some (s, [])
  | e :: evs =>
    (step debounceMs s e).bind fun p =>
      (runTrace debounceMs p.1 evs).map fun q => (q.1, p.2 ++ q.2)

/-- States reachable from the initial state under a fixed debounce
configuration. -/
inductive Reachable (debounceMs : Nat) : HookState → Prop
  | init : Reachable debounceMs initState
  | next (s s' : HookState) (e : Event) (outs : List Out) :
      Reachable debounceMs s → step debounceMs s e = some (s', outs) →
      Reachable debounceMs s'

/-- Structural invariant of the controller: every issued, unsettled
request that has not been aborted is the current one (its
`AbortController` is the one held in `abortControllerRef`), and while
such a request exists no error message is displayed (`run` cleared it
when the request was issued). -/
def Inv (s : HookState) : Prop :=
  (∀ r ∈ s.inflight, r ∉ s.abortedIds → s.currentReq = some r) ∧
  (∀ r ∈ s.inflight, r ∉ s.abortedIds → s.error = none)

/-- A dead controller: disposed, no pending debounce timer, and every
still-unsettled request already aborted.  The unmount cleanup always
leaves the controller in this condition. -/
def Dead (s : HookState) : Prop :=
  s.disposed = true ∧ s.pendingTimer = none ∧
    ∀ r ∈ s.inflight, r ∈ s.abortedIds

/-- A concrete successful validation result, used in concrete runs. -/
def exampleResult : ValidationResult :=
  { state := .ok, subState := .email_ok, email := "a@x.com",
    domain := "x.com", canonical := "a", mxRecord := none,
    firstName := none, lastName := none,
    verifiedAt := "2024-01-01T00:00:00Z", suggestion := none }

/-- The classified 429 error thrown by `verifyEmail`. -/
def exampleRateError : TruelistApiError :=
  { message := rateLimitMessage, status := some 429 }

/-- The classified 401 error thrown by `verifyEmail`. -/
def exampleAuthError : TruelistApiError :=
  { message := invalidKeyMessage, status := some 401 }

/-- State after `trigger "a@x.com"` from the initial state with
`debounceMs = 0`: request 0 is in flight. -/
def exampleInFlight : HookState :=
  { result := none, error := none, isValidating := true,
    pendingTimer := none, currentReq := some 0, inflight := [0],
    abortedIds := [], nextReqId := 1, disposed := false }

/-- State after request 0 settles successfully from `exampleInFlight`. -/
def exampleSettled : HookState :=
  { result := some exampleResult, error := none, isValidating := false,
    pendingTimer := none, currentReq := some 0, inflight := [],
    abortedIds := [], nextReqId := 1, disposed := false }

/-- State after `trigger "b@x.com"` from `exampleInFlight` with
`debounceMs = 0`: request 0 is aborted, request 1 is in flight. -/
def exampleSuperseded : HookState :=
  { result := none, error := none, isValidating := true,
    pendingTimer := none, currentReq := some 1, inflight := [1, 0],
    abortedIds := [0], nextReqId := 2, disposed := false }

/-- State after the aborted request 0 settles (with an AbortError) from
`exampleSuperseded`: nothing observable changes. -/
def exampleAbortedSettled : HookState :=
  { result := none, error := none, isValidating := true,
    pendingTimer := none, currentReq := some 1, inflight := [1],
    abortedIds := [0], nextReqId := 2, disposed := false }

/-- State after the unmount cleanup runs from `exampleInFlight`. -/
def exampleDisposed : HookState :=
  { result := none, error := none, isValidating := true,
    pendingTimer := none, currentReq := some 0, inflight := [0],
    abortedIds := [0], nextReqId := 1, disposed := true }

/-! ### Basic invariants of the controller -/

lemma inv_initState : Inv initState := by
  constructor <;> intro r hr <;> simp [initState] at hr

lemma inv_runRequest (email : String) (s : HookState) (h : Inv s) :
    Inv (runRequest email s).1 := by
  cases hcur : s.currentReq with
  | none =>
    refine ⟨fun r hr hna => ?_, fun r hr hna => ?_⟩
    · simp only [runRequest, hcur, List.mem_cons] at hr hna ⊢
      rcases hr with rfl | hr
      · rfl
      · have hc := h.1 r hr hna
        rw [hcur] at hc
        cases hc
    · simp only [runRequest, hcur]
  | some c =>
    refine ⟨fun r hr hna => ?_, fun r hr hna => ?_⟩
    · simp only [runRequest, hcur, List.mem_cons] at hr hna ⊢
      push_neg at hna
      rcases hr with rfl | hr
      · rfl
      · have hc := h.1 r hr hna.2
        rw [hcur] at hc
        exact absurd (Option.some.inj hc).symm hna.1
    · simp only [runRequest, hcur]

lemma inv_validate (d : Nat) (email : String) (s : HookState) (h : Inv s) :
    Inv (validate d email s).1 := by
  unfold validate
  split
  · exact ⟨fun r hr hna => h.1 r hr hna, fun r hr hna => rfl⟩
  · split
    · exact ⟨fun r hr hna => h.1 r hr hna, fun r hr hna => h.2 r hr hna⟩
    · exact inv_runRequest email _
        ⟨fun r hr hna => h.1 r hr hna, fun r hr hna => h.2 r hr hna⟩

lemma inv_timerFire (s s' : HookState) (outs : List Out) (h : Inv s)
    (hs : timerFire s = some (s', outs)) : Inv s' := by
  cases hp : s.pendingTimer with
  | none =>
    simp only [timerFire, hp] at hs
    exact Option.noConfusion hs
  | some p =>
    obtain ⟨em, dl⟩ := p
    simp only [timerFire, hp] at hs
    have h' : Inv (runRequest em { s with pendingTimer := none }).1 :=
      inv_runRequest em _
        ⟨fun r hr hna => h.1 r hr hna, fun r hr hna => h.2 r hr hna⟩
    cases hrun : runRequest em { s with pendingTimer := none } with
    | mk a b =>
      rw [hrun] at hs h'
      cases hs
      exact h'

lemma handleSettlement_success_of_mem (reqId : Nat) (res : ValidationResult)
    (s : HookState) (h : reqId ∈ s.abortedIds) :
    handleSettlement reqId (Outcome.success res) s = (s, []) := by
  simp [handleSettlement, h]

lemma handleSettlement_success_of_not_mem (reqId : Nat)
    (res : ValidationResult) (s : HookState) (h : reqId ∉ s.abortedIds) :
    handleSettlement reqId (Outcome.success res) s =
      ({ s with result := some res, isValidating := false },
        [Out.onResult res]) := by
  simp [handleSettlement, h]

lemma handleSettlement_failure_of_abort (reqId : Nat) (err : JsError)
    (s : HookState) (h : isAbortError err = true) :
    handleSettlement reqId (Outcome.failure err) s = (s, []) := by
  simp [handleSettlement, h]

lemma handleSettlement_failure_of_not_abort (reqId : Nat) (err : JsError)
    (s : HookState) (h : isAbortError err = false) :
    handleSettlement reqId (Outcome.failure err) s =
      ({ s with error := some (errorMessageOf err), isValidating := false },
        [Out.onError (errorMessageOf err)]) := by
  simp [handleSettlement, h]

lemma settle_inversion (reqId : Nat) (o : Outcome) (s s' : HookState)
    (outs : List Out) (hs : settle reqId o s = some (s', outs)) :
    reqId ∈ s.inflight ∧ settleAllowed s reqId o = true ∧
      handleSettlement reqId o
        { s with inflight := s.inflight.filter (fun i => decide (i ≠ reqId)) } =
        (s', outs) := by
  unfold settle at hs
  split at hs
  next hin =>
    split at hs
    next hallow => exact ⟨hin, hallow, Option.some.inj hs⟩
    next => cases hs
  next => cases hs

lemma settleAllowed_failure (s : HookState) (reqId : Nat) (err : JsError)
    (h : settleAllowed s reqId (Outcome.failure err) = true)
    (hna : isAbortError err = false) : reqId ∉ s.abortedIds := by
  simp only [settleAllowed, hna, Bool.or_false, Bool.not_eq_true',
    decide_eq_false_iff_not] at h
  exact h

lemma inv_settle (reqId : Nat) (o : Outcome) (s s' : HookState)
    (outs : List Out) (h : Inv s)
    (hs : settle reqId o s = some (s', outs)) : Inv s' := by
  obtain ⟨hin, hallow, hh⟩ := settle_inversion reqId o s s' outs hs
  set sF : HookState :=
    { s with inflight := s.inflight.filter (fun i => decide (i ≠ reqId)) }
    with hsF
  have hmem : ∀ r, r ∈ sF.inflight → r ∈ s.inflight ∧ r ≠ reqId := by
    intro r hr
    rw [hsF] at hr
    have h' := List.mem_filter.1 hr
    exact ⟨h'.1, by simpa using h'.2⟩
  cases o with
  | success res =>
    by_cases hab : reqId ∈ s.abortedIds
    · have habF : reqId ∈ sF.abortedIds := hab
      rw [handleSettlement_success_of_mem reqId res sF habF] at hh
      injection hh with h1 h2
      subst h1
      exact ⟨fun r hr hna => h.1 r (hmem r hr).1 hna,
        fun r hr hna => h.2 r (hmem r hr).1 hna⟩
    · have habF : reqId ∉ sF.abortedIds := hab
      rw [handleSettlement_success_of_not_mem reqId res sF habF] at hh
      injection hh with h1 h2
      subst h1
      exact ⟨fun r hr hna => h.1 r (hmem r hr).1 hna,
        fun r hr hna => h.2 r (hmem r hr).1 hna⟩
  | failure err =>
    by_cases hab : isAbortError err = true
    · rw [handleSettlement_failure_of_abort reqId err sF hab] at hh
      injection hh with h1 h2
      subst h1
      exact ⟨fun r hr hna => h.1 r (hmem r hr).1 hna,
        fun r hr hna => h.2 r (hmem r hr).1 hna⟩
    · have hab' : isAbortError err = false := by simpa using hab
      rw [handleSettlement_failure_of_not_abort reqId err sF hab'] at hh
      have hnab : reqId ∉ s.abortedIds :=
        settleAllowed_failure s reqId err hallow hab'
      injection hh with h1 h2
      subst h1
      refine ⟨fun r hr hna => h.1 r (hmem r hr).1 hna, fun r hr hna => ?_⟩
      have h1 := h.1 r (hmem r hr).1 hna
      have h2 := h.1 reqId hin hnab
      rw [h2] at h1
      exact absurd (Option.some.inj h1) (Ne.symm (hmem r hr).2)

lemma inv_reset (s : HookState) (h : Inv s) : Inv (reset s).1 := by
  cases hcur : s.currentReq with
  | none =>
    refine ⟨fun r hr hna => ?_, fun r hr hna => ?_⟩
    · simp only [reset, hcur] at hr hna ⊢
      have hc := h.1 r hr hna
      rw [hcur] at hc
      cases hc
    · simp only [reset, hcur]
  | some c =>
    refine ⟨fun r hr hna => ?_, fun r hr hna => ?_⟩
    · simp only [reset, hcur, List.mem_cons] at hr hna ⊢
      push_neg at hna
      have hc := h.1 r hr hna.2
      rw [hcur] at hc
      exact absurd (Option.some.inj hc).symm hna.1
    · simp only [reset, hcur]

lemma inv_dispose (s : HookState) (h : Inv s) : Inv (dispose s).1 := by
  cases hcur : s.currentReq with
  | none =>
    refine ⟨fun r hr hna => ?_, fun r hr hna => ?_⟩
    · simp only [dispose, hcur] at hr hna ⊢
      have hc := h.1 r hr hna
      rw [hcur] at hc
      cases hc
    · simp only [dispose, hcur] at hr hna ⊢
      exact h.2 r hr hna
  | some c =>
    refine ⟨fun r hr hna => ?_, fun r hr hna => ?_⟩
    · simp only [dispose, hcur, List.mem_cons] at hr hna ⊢
      push_neg at hna
      have hc := h.1 r hr hna.2
      rw [hcur] at hc
      exact hc
    · simp only [dispose, hcur, List.mem_cons] at hr hna ⊢
      push_neg at hna
      exact h.2 r hr hna.2

lemma inv_step (d : Nat) (s s' : HookState) (e : Event) (outs : List Out)
    (h : Inv s) (hs : step d s e = some (s', outs)) : Inv s' := by
  cases e with
  | trigger email =>
    simp only [step] at hs
    split at hs
    · cases hs
    · have h' := inv_validate d email s h
      cases hv : validate d email s with
      | mk a b => rw [hv] at hs h'; cases hs; exact h'
  | fire =>
    simp only [step] at hs
    split at hs
    · cases hs
    · exact inv_timerFire s s' outs h hs
  | settleEv reqId o => exact inv_settle reqId o s s' outs h hs
  | resetEv =>
    simp only [step] at hs
    split at hs
    · cases hs
    · have h' := inv_reset s h
      cases hv : reset s with
      | mk a b => rw [hv] at hs h'; cases hs; exact h'
  | disposeEv =>
    simp only [step] at hs
    split at hs
    · cases hs
    · have h' := inv_dispose s h
      cases hv : dispose s with
      | mk a b => rw [hv] at hs h'; cases hs; exact h'

lemma reachable_inv (d : Nat) (s : HookState) (h : Reachable d s) : Inv s := by
  induction h with
  | init => exact inv_initState
  | next s s' e outs _ hs ih => exact inv_step d s s' e outs ih hs

/-! ### Frame and silence lemmas -/

lemma handleSettlement_frame (reqId : Nat) (o : Outcome) (s : HookState) :
    (handleSettlement reqId o s).1.abortedIds = s.abortedIds ∧
      (handleSettlement reqId o s).1.pendingTimer = s.pendingTimer ∧
      (handleSettlement reqId o s).1.currentReq = s.currentReq ∧
      (handleSettlement reqId o s).1.inflight = s.inflight ∧
      (handleSettlement reqId o s).1.disposed = s.disposed := by
  cases o with
  | success res =>
    by_cases hab : reqId ∈ s.abortedIds <;> simp [handleSettlement, hab]
  | failure err =>
    by_cases hab : isAbortError err = true <;> simp [handleSettlement, hab]

lemma settle_frame (reqId : Nat) (o : Outcome) (s s' : HookState)
    (outs : List Out) (hs : settle reqId o s = some (s', outs)) :
    s'.abortedIds = s.abortedIds ∧ s'.pendingTimer = s.pendingTimer ∧
      s'.currentReq = s.currentReq ∧ s'.disposed = s.disposed ∧
      (∀ r ∈ s'.inflight, r ∈ s.inflight) := by
  obtain ⟨hin, hallow, hh⟩ := settle_inversion reqId o s s' outs hs
  set sF : HookState :=
    { s with inflight := s.inflight.filter (fun i => decide (i ≠ reqId)) }
    with hsF
  have hf := handleSettlement_frame reqId o sF
  rw [hh] at hf
  refine ⟨hf.1, hf.2.1, hf.2.2.1, hf.2.2.2.2, fun r hr => ?_⟩
  rw [hf.2.2.2.1] at hr
  exact (List.mem_filter.1 hr).1

/-- A settlement of a request whose controller was aborted is fully
silent: no output is emitted, and the observable state and all the
controller's bookkeeping are unchanged. -/
lemma settle_aborted_silent (reqId : Nat) (o : Outcome) (s s' : HookState)
    (outs : List Out) (hab : reqId ∈ s.abortedIds)
    (hs : settle reqId o s = some (s', outs)) :
    outs = [] ∧ s'.result = s.result ∧ s'.error = s.error ∧
      s'.isValidating = s.isValidating := by
  obtain ⟨hin, hallow, hh⟩ := settle_inversion reqId o s s' outs hs
  set sF : HookState :=
    { s with inflight := s.inflight.filter (fun i => decide (i ≠ reqId)) }
    with hsF
  cases o with
  | success res =>
    have habF : reqId ∈ sF.abortedIds := hab
    rw [handleSettlement_success_of_mem reqId res sF habF] at hh
    injection hh with h1 h2
    subst h1
    exact ⟨h2.symm, rfl, rfl, rfl⟩
  | failure err =>
    have habort : isAbortError err = true := by
      simp only [settleAllowed, Bool.or_eq_true, Bool.not_eq_true',
        decide_eq_false_iff_not] at hallow
      rcases hallow with h' | h'
      · exact absurd hab h'
      · exact h'
    rw [handleSettlement_failure_of_abort reqId err sF habort] at hh
    injection hh with h1 h2
    subst h1
    exact ⟨h2.symm, rfl, rfl, rfl⟩

lemma runRequest_abortedIds_mono (email : String) (s : HookState) :
    ∀ r ∈ s.abortedIds, r ∈ (runRequest email s).1.abortedIds := by
  intro r hr
  cases hcur : s.currentReq <;>
    simp only [runRequest, hcur, List.mem_cons]
  · exact hr
  · exact Or.inr hr

lemma validate_abortedIds_mono (d : Nat) (email : String) (s : HookState) :
    ∀ r ∈ s.abortedIds, r ∈ (validate d email s).1.abortedIds := by
  intro r hr
  unfold validate
  split
  · exact hr
  · split
    · exact hr
    · exact runRequest_abortedIds_mono email _ r hr

lemma step_abortedIds_mono (d : Nat) (s s' : HookState) (e : Event)
    (outs : List Out) (hs : step d s e = some (s', outs)) :
    ∀ r ∈ s.abortedIds, r ∈ s'.abortedIds := by
  intro r hr
  cases e with
  | trigger email =>
    simp only [step] at hs
    split at hs
    · exact Option.noConfusion hs
    · injection hs with hs
      have h1 : s' = (validate d email s).1 := by rw [hs]
      rw [h1]
      exact validate_abortedIds_mono d email s r hr
  | fire =>
    simp only [step] at hs
    split at hs
    · exact Option.noConfusion hs
    · cases hp : s.pendingTimer with
      | none =>
        simp only [timerFire, hp] at hs
        exact Option.noConfusion hs
      | some p =>
        obtain ⟨em, dl⟩ := p
        simp only [timerFire, hp] at hs
        cases hrun : runRequest em { s with pendingTimer := none } with
        | mk a b =>
          rw [hrun] at hs
          injection hs with hs
          injection hs with hs1 hs2
          subst hs1
          have := runRequest_abortedIds_mono em { s with pendingTimer := none } r hr
          rw [hrun] at this
          exact this
  | settleEv reqId o =>
    have hfr := settle_frame reqId o s s' outs hs
    rw [hfr.1]
    exact hr
  | resetEv =>
    simp only [step] at hs
    split at hs
    · exact Option.noConfusion hs
    · injection hs with hs
      have h1 : s' = (reset s).1 := by rw [hs]
      rw [h1]
      cases hcur : s.currentReq <;>
        simp only [reset, hcur, List.mem_cons]
      · exact hr
      · exact Or.inr hr
  | disposeEv =>
    simp only [step] at hs
    split at hs
    · exact Option.noConfusion hs
    · injection hs with hs
      have h1 : s' = (dispose s).1 := by rw [hs]
      rw [h1]
      cases hcur : s.currentReq <;>
        simp only [dispose, hcur, List.mem_cons]
      · exact hr
      · exact Or.inr hr

lemma runTrace_cons_inversion (d : Nat) (s : HookState) (e : Event)
    (evs : List Event) (s' : HookState) (outs : List Out)
    (ht : runTrace d s (e :: evs) = some (s', outs)) :
    ∃ s1 outs1 outs2, step d s e = some (s1, outs1) ∧
      runTrace d s1 evs = some (s', outs2) ∧ outs = outs1 ++ outs2 := by
  simp only [runTrace, Option.bind_eq_some, Option.map_eq_some'] at ht
  obtain ⟨⟨s1, outs1⟩, hstep, ⟨s2, outs2⟩, htr, heq⟩ := ht
  injection heq with heq1 heq2
  refine ⟨s1, outs1, outs2, hstep, ?_, heq2.symm⟩
  rw [← heq1]
  exact htr

lemma runTrace_abortedIds_mono (d : Nat) (evs : List Event)
    (s s' : HookState) (outs : List Out)
    (ht : runTrace d s evs = some (s', outs)) :
    ∀ r ∈ s.abortedIds, r ∈ s'.abortedIds := by
  induction evs generalizing s outs with
  | nil =>
    simp only [runTrace] at ht
    injection ht with ht
    injection ht with ht1 ht2
    subst ht1
    exact fun r hr => hr
  | cons e evs ih =>
    obtain ⟨s1, outs1, outs2, hstep, htr, _⟩ :=
      runTrace_cons_inversion d s e evs s' outs ht
    intro r hr
    exact ih s1 outs2 htr r (step_abortedIds_mono d s s1 e outs1 hstep r hr)

/-! ### Quiescence after disposal -/

lemma dead_step (d : Nat) (s s' : HookState) (e : Event) (outs : List Out)
    (hd : Dead s) (hs : step d s e = some (s', outs)) :
    Dead s' ∧ outs = [] ∧ s'.result = s.result ∧ s'.error = s.error ∧
      s'.isValidating = s.isValidating := by
  cases e with
  | trigger email => simp [step, hd.1] at hs
  | fire => simp [step, hd.1] at hs
  | resetEv => simp [step, hd.1] at hs
  | disposeEv => simp [step, hd.1] at hs
  | settleEv reqId o =>
    have hs' : settle reqId o s = some (s', outs) := hs
    obtain ⟨hin, _, _⟩ := settle_inversion reqId o s s' outs hs'
    have hab : reqId ∈ s.abortedIds := hd.2.2 reqId hin
    have hsil := settle_aborted_silent reqId o s s' outs hab hs'
    have hfr := settle_frame reqId o s s' outs hs'
    refine ⟨⟨?_, ?_, ?_⟩, hsil.1, hsil.2.1, hsil.2.2.1, hsil.2.2.2⟩
    · rw [hfr.2.2.2.1]; exact hd.1
    · rw [hfr.2.1]; exact hd.2.1
    · intro r hr
      rw [hfr.1]
      exact hd.2.2 r (hfr.2.2.2.2 r hr)

lemma dead_runTrace (d : Nat) (evs : List Event) (s s' : HookState)
    (outs : List Out) (hd : Dead s)
    (ht : runTrace d s evs = some (s', outs)) :
    Dead s' ∧ outs = [] ∧ s'.result = s.result ∧ s'.error = s.error ∧
      s'.isValidating = s.isValidating := by
  induction evs generalizing s outs with
  | nil =>
    simp only [runTrace] at ht
    injection ht with ht
    injection ht with ht1 ht2
    subst ht1
    exact ⟨hd, ht2.symm, rfl, rfl, rfl⟩
  | cons e evs ih =>
    obtain ⟨s1, outs1, outs2, hstep, htr, houts⟩ :=
      runTrace_cons_inversion d s e evs s' outs ht
    have h1 := dead_step d s s1 e outs1 hd hstep
    have h2 := ih s1 outs2 h1.1 htr
    subst houts
    rw [h1.2.1, h2.2.1]
    refine ⟨h2.1, rfl, ?_, ?_, ?_⟩
    · rw [h2.2.2.1, h1.2.2.1]
    · rw [h2.2.2.2.1, h1.2.2.2.1]
    · rw [h2.2.2.2.2, h1.2.2.2.2]

/-! ### Characterizations of the individual operations -/

lemma runRequest_proj (email : String) (s : HookState) :
    (runRequest email s).2 = [Out.requestIssued email] ∧
      (runRequest email s).1.pendingTimer = s.pendingTimer ∧
      (runRequest email s).1.isValidating = true ∧
      (runRequest email s).1.inflight = s.nextReqId :: s.inflight ∧
      (runRequest email s).1.error = none ∧
      (runRequest email s).1.result = s.result ∧
      (runRequest email s).1.currentReq = some s.nextReqId := by
  cases hcur : s.currentReq <;> simp [runRequest, hcur]

lemma validate_clear (d : Nat) (email : String) (s : HookState)
    (hok : email = "" ∨ '@' ∉ email.data) :
    validate d email s =
      ({ s with
          pendingTimer := none
          result := none
          error := none
          isValidating := false }, []) := by
  simp only [validate]
  rw [if_pos hok]

lemma validate_debounce (d : Nat) (email : String) (s : HookState)
    (hok : ¬(email = "" ∨ '@' ∉ email.data)) (hd : 0 < d) :
    validate d email s =
      ({ s with pendingTimer := some (email, d) }, []) := by
  simp only [validate]
  rw [if_neg hok, if_pos hd]

lemma validate_run (d : Nat) (email : String) (s : HookState)
    (hok : ¬(email = "" ∨ '@' ∉ email.data)) (hd : ¬ 0 < d) :
    validate d email s = runRequest email { s with pendingTimer := none } := by
  simp only [validate]
  rw [if_neg hok, if_neg hd]

lemma reset_spec (s : HookState) :
    (reset s).2 = [] ∧ (reset s).1.result = none ∧
      (reset s).1.error = none ∧ (reset s).1.isValidating = false ∧
      (reset s).1.pendingTimer = none ∧ (reset s).1.disposed = s.disposed ∧
      (reset s).1.inflight = s.inflight := by
  cases hcur : s.currentReq <;> simp [reset, hcur]

lemma reset_currentReq (s : HookState) (hcur : s.currentReq = none ∨
    ∃ c, s.currentReq = some c) : (reset s).1.currentReq = none ∨
    (reset s).1.currentReq = s.currentReq := by
  rcases hcur with h | ⟨c, h⟩ <;> simp [reset, h]

lemma reset_idem (s : HookState) :
    reset ((reset s).1) = ((reset s).1, []) := by
  cases hcur : s.currentReq <;> simp [reset, hcur]

lemma reset_aborts (s : HookState) (h : Inv s) :
    ∀ r ∈ s.inflight, r ∈ (reset s).1.abortedIds := by
  intro r hr
  by_cases hab : r ∈ s.abortedIds
  · cases hcur : s.currentReq <;>
      simp only [reset, hcur, List.mem_cons]
    · exact hab
    · exact Or.inr hab
  · have hc := h.1 r hr hab
    cases hcur : s.currentReq with
    | none => rw [hcur] at hc; cases hc
    | some c =>
      rw [hcur] at hc
      simp only [reset, hcur, List.mem_cons]
      exact Or.inl (Option.some.inj hc).symm

lemma dispose_spec (s : HookState) :
    (dispose s).2 = [] ∧ (dispose s).1.pendingTimer = none ∧
      (dispose s).1.disposed = true ∧ (dispose s).1.inflight = s.inflight ∧
      (dispose s).1.result = s.result ∧ (dispose s).1.error = s.error ∧
      (dispose s).1.isValidating = s.isValidating := by
  cases hcur : s.currentReq <;> simp [dispose, hcur]

lemma dispose_aborts (s : HookState) (h : Inv s) :
    ∀ r ∈ s.inflight, r ∈ (dispose s).1.abortedIds := by
  intro r hr
  by_cases hab : r ∈ s.abortedIds
  · cases hcur : s.currentReq <;>
      simp only [dispose, hcur, List.mem_cons]
    · exact hab
    · exact Or.inr hab
  · have hc := h.1 r hr hab
    cases hcur : s.currentReq with
    | none => rw [hcur] at hc; cases hc
    | some c =>
      rw [hcur] at hc
      simp only [dispose, hcur, List.mem_cons]
      exact Or.inl (Option.some.inj hc).symm

/-- A successful settlement that is not silent comes from an issued,
non-aborted request, applies the result, clears the validating flag and
fires the success callback. -/
lemma settle_success_not_silent (reqId : Nat) (res : ValidationResult)
    (s s' : HookState) (outs : List Out)
    (hs : settle reqId (Outcome.success res) s = some (s', outs))
    (ho : outs ≠ []) :
    reqId ∈ s.inflight ∧ reqId ∉ s.abortedIds ∧ s'.result = some res ∧
      s'.error = s.error ∧ s'.isValidating = false ∧
      outs = [Out.onResult res] := by
  obtain ⟨hin, hallow, hh⟩ :=
    settle_inversion reqId (Outcome.success res) s s' outs hs
  set sF : HookState :=
    { s with inflight := s.inflight.filter (fun i => decide (i ≠ reqId)) }
    with hsF
  by_cases hab : reqId ∈ s.abortedIds
  · have habF : reqId ∈ sF.abortedIds := hab
    rw [handleSettlement_success_of_mem reqId res sF habF] at hh
    injection hh with h1 h2
    exact absurd h2.symm ho
  · have habF : reqId ∉ sF.abortedIds := hab
    rw [handleSettlement_success_of_not_mem reqId res sF habF] at hh
    injection hh with h1 h2
    subst h1
    exact ⟨hin, hab, rfl, rfl, rfl, h2.symm⟩

/-- A failure settlement that is not silent comes from an issued,
non-aborted request with a non-abort error; it records the classified
message and fires the failure callback with the same message. -/
lemma settle_failure_not_silent (reqId : Nat) (err : JsError)
    (s s' : HookState) (outs : List Out)
    (hs : settle reqId (Outcome.failure err) s = some (s', outs))
    (ho : outs ≠ []) :
    reqId ∈ s.inflight ∧ reqId ∉ s.abortedIds ∧ isAbortError err = false ∧
      s'.error = some (errorMessageOf err) ∧ s'.result = s.result ∧
      s'.isValidating = false ∧ outs = [Out.onError (errorMessageOf err)] := by
  obtain ⟨hin, hallow, hh⟩ :=
    settle_inversion reqId (Outcome.failure err) s s' outs hs
  set sF : HookState :=
    { s with inflight := s.inflight.filter (fun i => decide (i ≠ reqId)) }
    with hsF
  by_cases hab : isAbortError err = true
  · rw [handleSettlement_failure_of_abort reqId err sF hab] at hh
    injection hh with h1 h2
    exact absurd h2.symm ho
  · have hab' : isAbortError err = false := by simpa using hab
    rw [handleSettlement_failure_of_not_abort reqId err sF hab'] at hh
    have hnab : reqId ∉ s.abortedIds :=
      settleAllowed_failure s reqId err hallow hab'
    injection hh with h1 h2
    subst h1
    exact ⟨hin, hnab, hab', rfl, rfl, rfl, h2.symm⟩

/-- The generic API error message always starts with the character `T`
of its fixed prefix. -/
lemma genericMessage_head (code : Nat) (t : String) :
    (genericMessage code t).data.head? = some 'T' := by
  unfold genericMessage
  rw [String.data_append, String.data_append, String.data_append]
  have h0 : "Truelist API error: ".data =
      'T' :: "ruelist API error: ".data := by decide
  rw [h0]
  simp [List.cons_append]

/-! ### Claim C1 -/

/-- C1 counterexample: with the default 500 ms debounce, trigger A
("a@x.com") issues its request when its timer fires; a later trigger B
("b@x.com") arrives before A's request settles and merely schedules a
new debounce timer, without aborting A's in-flight request.  A's
settlement is then still applied: `onResult` fires with A's result and
the observable `result` holds it — contradicting the claim that when
trigger B follows trigger A before A's request settles, A's eventual
outcome is never observed. -/
theorem c1_counterexample :
    (runTrace 500 initState
      [Event.trigger "a@x.com", Event.fire, Event.trigger "b@x.com",
       Event.settleEv 0 (Outcome.success exampleResult)]).map
        (fun p => (p.1.result, p.2)) =
      some (some exampleResult,
        [Out.requestIssued "a@x.com", Out.onResult exampleResult]) := by
  decide

/-- C1 (amended): (i) a settlement that reaches observable state or
fires a callback is always the current — most recently issued —
request's, so a superseded (aborted) request's settlement is silent;
(ii) after any trigger, the pending deferred execution is at most the
new trigger's own, so a trigger issued while a previous trigger's
debounce timer is pending prevents the previous trigger's request from
ever being issued; (iii) a firing timer issues exactly the request of
the currently scheduled email.  However (per the counterexample), a
trigger that merely schedules a debounce timer does not abort the
previous trigger's already in-flight request, whose outcome may still
be observed before the new request is issued. -/
theorem c1_theorem (d : Nat) (s s' : HookState) (reqId : Nat) (o : Outcome)
    (outs : List Out) (hr : Reachable d s)
    (hs : step d s (Event.settleEv reqId o) = some (s', outs))
    (ho : outs ≠ []) :
    s.currentReq = some reqId ∧
    (∀ email s2 t outs2, step d s2 (Event.trigger email) = some (t, outs2) →
      t.pendingTimer = none ∨ t.pendingTimer = some (email, d)) ∧
    (∀ s2 t outs2, step d s2 Event.fire = some (t, outs2) →
      ∃ email dly, s2.pendingTimer = some (email, dly) ∧
        outs2 = [Out.requestIssued email]) := by
  refine ⟨?_, ?_, ?_⟩
  · have hs' : settle reqId o s = some (s', outs) := hs
    cases o with
    | success res =>
      obtain ⟨hin, hnab, _, _, _, _⟩ :=
        settle_success_not_silent reqId res s s' outs hs' ho
      exact (reachable_inv d s hr).1 reqId hin hnab
    | failure err =>
      obtain ⟨hin, hnab, _, _, _, _, _⟩ :=
        settle_failure_not_silent reqId err s s' outs hs' ho
      exact (reachable_inv d s hr).1 reqId hin hnab
  · intro email s2 t outs2 hstep
    simp only [step] at hstep
    split at hstep
    · exact Option.noConfusion hstep
    · injection hstep with hstep
      by_cases hok : email = "" ∨ '@' ∉ email.data
      · rw [validate_clear d email s2 hok] at hstep
        injection hstep with h1 h2
        subst h1
        exact Or.inl rfl
      · by_cases hd : 0 < d
        · rw [validate_debounce d email s2 hok hd] at hstep
          injection hstep with h1 h2
          subst h1
          exact Or.inr rfl
        · rw [validate_run d email s2 hok hd] at hstep
          have hp := (runRequest_proj email { s2 with pendingTimer := none }).2.1
          rw [hstep] at hp
          exact Or.inl hp
  · intro s2 t outs2 hstep
    simp only [step] at hstep
    split at hstep
    · exact Option.noConfusion hstep
    · cases hp : s2.pendingTimer with
      | none =>
        simp only [timerFire, hp] at hstep
        exact Option.noConfusion hstep
      | some p =>
        obtain ⟨em, dl⟩ := p
        simp only [timerFire, hp] at hstep
        injection hstep with hstep
        refine ⟨em, dl, rfl, ?_⟩
        have h2 := (runRequest_proj em { s2 with pendingTimer := none }).1
        rw [hstep] at h2
        exact h2

/-- C1 witness: the amended theorem applied to the concrete settlement
of request 0 after a single trigger with `debounceMs = 0`. -/
theorem c1_witness : exampleInFlight.currentReq = some 0 :=
  (c1_theorem 0 exampleInFlight exampleSettled 0
    (Outcome.success exampleResult) [Out.onResult exampleResult]
    (Reachable.next initState exampleInFlight (Event.trigger "a@x.com")
      [Out.requestIssued "a@x.com"] Reachable.init (by decide))
    (by decide) (by decide)).1

/-! ### Claim C2 -/

/-- C2 counterexample: with `debounceMs = 0`, trigger "a@x.com" resolves
successfully (result set), then trigger "b@x.com" fails with a rate
limit error.  The final state holds both the stale result of the first
trigger and the new error message — `result` and `error` are
simultaneously non-null, contradicting the claimed invariant. -/
theorem c2_counterexample :
    (runTrace 0 initState
      [Event.trigger "a@x.com", Event.settleEv 0 (Outcome.success exampleResult),
       Event.trigger "b@x.com",
       Event.settleEv 1 (Outcome.failure (JsError.apiError exampleRateError))]).map
        (fun p => (p.1.result, p.1.error)) =
      some (some exampleResult, some rateLimitMessage) := by
  decide

/-- C2 (amended): issuing a request clears `error`, so whenever a
successful settlement populates `result`, `error` is null at that
point (and the validating flag is cleared); but nothing clears a
previously resolved `result` when a later trigger's request fails, so
`result` and `error` can be simultaneously non-null (see the
counterexample). -/
theorem c2_theorem (d : Nat) (s s' : HookState) (reqId : Nat)
    (res : ValidationResult) (outs : List Out) (hr : Reachable d s)
    (hs : step d s (Event.settleEv reqId (Outcome.success res)) = some (s', outs))
    (ho : outs ≠ []) :
    s'.result = some res ∧ s'.error = none ∧ s'.isValidating = false := by
  have hs' : settle reqId (Outcome.success res) s = some (s', outs) := hs
  obtain ⟨hin, hnab, hres, herr, hval, _⟩ :=
    settle_success_not_silent reqId res s s' outs hs' ho
  refine ⟨hres, ?_, hval⟩
  rw [herr]
  exact (reachable_inv d s hr).2 reqId hin hnab

/-- C2 witness: the amended theorem applied to the concrete successful
settlement of request 0. -/
theorem c2_witness :
    exampleSettled.result = some exampleResult ∧
      exampleSettled.error = none ∧ exampleSettled.isValidating = false :=
  c2_theorem 0 exampleInFlight exampleSettled 0 exampleResult
    [Out.onResult exampleResult]
    (Reachable.next initState exampleInFlight (Event.trigger "a@x.com")
      [Out.requestIssued "a@x.com"] Reachable.init (by decide))
    (by decide) (by decide)

/-! ### Claim C3 -/

/-- C3 counterexample: a 401-classified authentication failure of the
remote verifier inside the zod refine callback produces `Except.ok
true` — the email is accepted and no error propagates (`Except.error`)
to the caller, contradicting the claim that authentication failures
are never swallowed. -/
theorem c3_counterexample :
    truelistEmailRefineRun [ValidationState.email_invalid]
      (Except.error exampleAuthError) = Except.ok true := rfl

/-- C3 (amended): the zod refine callback of `truelistEmail` swallows
every failure of the remote verifier — authentication failures
included — fail-open: the refinement returns `true` (the email is
accepted) and never propagates an error; a successful verification is
rejected exactly when its primary state is in the configured reject
set. -/
theorem c3_theorem :
    (∀ rejectStates e,
      truelistEmailRefineRun rejectStates (Except.error e) = Except.ok true) ∧
    (∀ rejectStates res,
      truelistEmailRefineRun rejectStates (Except.ok res) =
        Except.ok (!(rejectStates.contains res.state))) :=
  ⟨fun _ _ => rfl, fun _ _ => rfl⟩

/-! ### Claim C4 -/

/-- C4 counterexample: with `debounceMs = 0`, trigger "a@x.com" puts
request 0 in flight; `trigger ""` then clears the observable state but
does not abort request 0, whose later successful settlement still
populates `result` and fires `onResult` — a stale result surfaces
after the clearing trigger, contradicting the claim that the in-flight
request is cancelled. -/
theorem c4_counterexample :
    (runTrace 0 initState
      [Event.trigger "a@x.com", Event.trigger "",
       Event.settleEv 0 (Outcome.success exampleResult)]).map
        (fun p => (p.1.result, p.2)) =
      some (some exampleResult,
        [Out.requestIssued "a@x.com", Out.onResult exampleResult]) := by
  decide

/-- C4 (amended): for every empty or @-less input, `validate`
synchronously clears the observable state back to idle (result and
error null, validating flag false), cancels any pending debounce timer
and issues no request — but it does not abort an in-flight request
(inflight, aborted ids and current request are unchanged), so that
request's later settlement can still surface a result or error (see
the counterexample). -/
theorem c4_theorem (d : Nat) (s : HookState) (email : String)
    (hnd : s.disposed = false) (hbad : email = "" ∨ '@' ∉ email.data) :
    step d s (Event.trigger email) = some
      ({ s with
          pendingTimer := none
          result := none
          error := none
          isValidating := false }, []) := by
  have h1 : step d s (Event.trigger email) = some (validate d email s) := by
    simp [step, hnd]
  rw [h1, validate_clear d email s hbad]

/-- C4 witness: the amended theorem applied to `trigger ""` while
request 0 is in flight. -/
theorem c4_witness :
    step 0 exampleInFlight (Event.trigger "") = some
      ({ exampleInFlight with
          pendingTimer := none
          result := none
          error := none
          isValidating := false }, []) :=
  c4_theorem 0 exampleInFlight "" (by decide) (Or.inl rfl)

/-! ### Claim C5 -/

/-- C5: the settlement of a request whose controller was aborted
(because it was superseded by a newer trigger, or by reset or
disposal) is fully silent: no callback fires (the emitted outputs are
empty, so neither `onResult` nor `onError` runs) and the observable
state — result, error, validating flag — is unchanged. -/
theorem c5_theorem (d : Nat) (reqId : Nat) (o : Outcome) (s s' : HookState)
    (outs : List Out) (hab : reqId ∈ s.abortedIds)
    (hs : step d s (Event.settleEv reqId o) = some (s', outs)) :
    outs = [] ∧ s'.result = s.result ∧ s'.error = s.error ∧
      s'.isValidating = s.isValidating :=
  settle_aborted_silent reqId o s s' outs hab hs

/-- C5 witness: the theorem applied to the settlement of the aborted
request 0 after it was superseded by request 1. -/
theorem c5_witness :
    ([] : List Out) = [] ∧
      exampleAbortedSettled.result = exampleSuperseded.result ∧
      exampleAbortedSettled.error = exampleSuperseded.error ∧
      exampleAbortedSettled.isValidating = exampleSuperseded.isValidating :=
  c5_theorem 0 0 (Outcome.failure (JsError.domException "AbortError"))
    exampleSuperseded exampleAbortedSettled [] (by decide) (by decide)

/-! ### Claim C6 -/

/-- C6: `reset` cancels the pending debounce timer, clears result,
error and the validating flag back to idle, and aborts every request
still in flight; it is idempotent — resetting the already-reset state
is enabled and returns exactly the same state with no output; and after
a reset, the settlement of any request that was in flight at the reset
is silent along every later run (no `onResult`/`onError` fires). -/
theorem c6_theorem (d : Nat) (s : HookState) (hr : Reachable d s)
    (hnd : s.disposed = false) :
    step d s Event.resetEv = some ((reset s).1, []) ∧
    (reset s).1.result = none ∧ (reset s).1.error = none ∧
    (reset s).1.isValidating = false ∧ (reset s).1.pendingTimer = none ∧
    step d (reset s).1 Event.resetEv = some ((reset s).1, []) ∧
    (∀ r ∈ s.inflight, r ∈ (reset s).1.abortedIds) ∧
    (∀ evs s2 outs2, runTrace d (reset s).1 evs = some (s2, outs2) →
      ∀ r ∈ s.inflight, ∀ o s3 outs3,
        step d s2 (Event.settleEv r o) = some (s3, outs3) → outs3 = []) := by
  have hspec := reset_spec s
  have hpair : ((reset s).1, ([] : List Out)) = reset s := by
    rw [← hspec.1]
  have hd2 : (reset s).1.disposed = false := by
    rw [hspec.2.2.2.2.2.1]
    exact hnd
  refine ⟨?_, hspec.2.1, hspec.2.2.1, hspec.2.2.2.1, hspec.2.2.2.2.1,
    ?_, ?_, ?_⟩
  · rw [hpair]
    simp [step, hnd]
  · have hstep2 : step d (reset s).1 Event.resetEv =
        some (reset ((reset s).1)) := by
      simp [step, hd2]
    rw [hstep2, reset_idem s]
  · exact reset_aborts s (reachable_inv d s hr)
  · intro evs s2 outs2 htr r hrin o s3 outs3 hset
    have hab1 : r ∈ (reset s).1.abortedIds :=
      reset_aborts s (reachable_inv d s hr) r hrin
    have hab2 : r ∈ s2.abortedIds :=
      runTrace_abortedIds_mono d evs (reset s).1 s2 outs2 htr r hab1
    exact (settle_aborted_silent r o s2 s3 outs3 hab2 hset).1

/-- C6 witness: the theorem applied to a reset while request 0 is in
flight. -/
theorem c6_witness :
    step 0 exampleInFlight Event.resetEv =
      some ((reset exampleInFlight).1, []) :=
  (c6_theorem 0 exampleInFlight
    (Reachable.next initState exampleInFlight (Event.trigger "a@x.com")
      [Out.requestIssued "a@x.com"] Reachable.init (by decide))
    (by decide)).1

/-! ### Claim C7 -/

/-- C7: the unmount cleanup emits no output, clears the pending
debounce timer, and leaves the controller quiescent: along every event
run from the disposed state, no output is ever emitted (no callback
fires), the observable state never changes, and the debounce-timer
firing event is never enabled — no request or timer outlives the
controller. -/
theorem c7_theorem (d : Nat) (s s' : HookState) (outs : List Out)
    (hr : Reachable d s)
    (hs : step d s Event.disposeEv = some (s', outs)) :
    outs = [] ∧ s'.pendingTimer = none ∧
      (∀ evs s2 outs2, runTrace d s' evs = some (s2, outs2) →
        outs2 = [] ∧ s2.result = s'.result ∧ s2.error = s'.error ∧
          s2.isValidating = s'.isValidating ∧
          step d s2 Event.fire = none) := by
  simp only [step] at hs
  split at hs
  · exact Option.noConfusion hs
  · injection hs with hs
    have h1 : s' = (dispose s).1 := by rw [hs]
    have h2 : outs = (dispose s).2 := by rw [hs]
    subst h1
    subst h2
    have hspec := dispose_spec s
    refine ⟨hspec.1, hspec.2.1, ?_⟩
    have hdead : Dead (dispose s).1 := by
      refine ⟨hspec.2.2.1, hspec.2.1, ?_⟩
      intro r hrin
      rw [hspec.2.2.2.1] at hrin
      exact dispose_aborts s (reachable_inv d s hr) r hrin
    intro evs s2 outs2 htr
    have h3 := dead_runTrace d evs (dispose s).1 s2 outs2 hdead htr
    refine ⟨h3.2.1, h3.2.2.1, h3.2.2.2.1, h3.2.2.2.2, ?_⟩
    simp [step, h3.1.1]

/-- C7 witness: the theorem applied to the unmount cleanup while
request 0 is in flight. -/
theorem c7_witness :
    ([] : List Out) = [] ∧ exampleDisposed.pendingTimer = none :=
  ⟨(c7_theorem 0 exampleInFlight exampleDisposed []
      (Reachable.next initState exampleInFlight (Event.trigger "a@x.com")
        [Out.requestIssued "a@x.com"] Reachable.init (by decide))
      (by decide)).1,
    (c7_theorem 0 exampleInFlight exampleDisposed []
      (Reachable.next initState exampleInFlight (Event.trigger "a@x.com")
        [Out.requestIssued "a@x.com"] Reachable.init (by decide))
      (by decide)).2.1⟩

/-! ### Claim C8 -/

/-- C8: `verifyEmail` classifies a 429 response with the distinct
rate-limit message, a 401 response with the distinct
authentication-failure message, and every other non-OK response with
the generic message carrying the status; the three messages are
pairwise distinct; the hook surfaces a `TruelistApiError`'s own
message, falls back to the generic fallback string for any other
caught error, and a non-silent failure settlement records the message
in `error` and invokes `onError` with the same message. -/
theorem c8_theorem :
    (∀ t, verifyEmailError ⟨false, 429, t⟩ =
      some ⟨rateLimitMessage, some 429⟩) ∧
    (∀ t, verifyEmailError ⟨false, 401, t⟩ =
      some ⟨invalidKeyMessage, some 401⟩) ∧
    (∀ code t, code ≠ 429 → code ≠ 401 →
      verifyEmailError ⟨false, code, t⟩ =
        some ⟨genericMessage code t, some code⟩) ∧
    (∀ code t, genericMessage code t ≠ rateLimitMessage ∧
      genericMessage code t ≠ invalidKeyMessage) ∧
    rateLimitMessage ≠ invalidKeyMessage ∧
    (∀ e, errorMessageOf (JsError.apiError e) = e.message) ∧
    (∀ name, errorMessageOf (JsError.domException name) = fallbackMessage) ∧
    errorMessageOf JsError.other = fallbackMessage ∧
    (∀ d s s' reqId err outs,
      step d s (Event.settleEv reqId (Outcome.failure err)) =
        some (s', outs) →
      outs ≠ [] →
      s'.error = some (errorMessageOf err) ∧ s'.isValidating = false ∧
        outs = [Out.onError (errorMessageOf err)]) := by
  refine ⟨fun t => rfl, fun t => rfl, ?_, ?_, by decide, fun e => rfl,
    fun name => rfl, rfl, ?_⟩
  · intro code t h429 h401
    simp [verifyEmailError, h429, h401]
  · intro code t
    constructor
    · intro h
      have hh : (genericMessage code t).data.head? =
          rateLimitMessage.data.head? := by rw [h]
      rw [genericMessage_head] at hh
      have hr' : rateLimitMessage.data.head? = some 'R' := by decide
      rw [hr'] at hh
      exact absurd hh (by decide)
    · intro h
      have hh : (genericMessage code t).data.head? =
          invalidKeyMessage.data.head? := by rw [h]
      rw [genericMessage_head] at hh
      have hi' : invalidKeyMessage.data.head? = some 'I' := by decide
      rw [hi'] at hh
      exact absurd hh (by decide)
  · intro d s s' reqId err outs hs ho
    have hs' : settle reqId (Outcome.failure err) s = some (s', outs) := hs
    obtain ⟨_, _, _, herr, _, hval, houts⟩ :=
      settle_failure_not_silent reqId err s s' outs hs' ho
    exact ⟨herr, hval, houts⟩

/-- C8 witness: the generic-classification conjunct applied to a
concrete 500 response. -/
theorem c8_witness :
    verifyEmailError ⟨false, 500, "Internal Server Error"⟩ =
      some ⟨genericMessage 500 "Internal Server Error", some 500⟩ :=
  c8_theorem.2.2.1 500 "Internal Server Error" (by decide) (by decide)

/-! ### Claim C9 -/

/-- C9: the debounce delay defaults to 500 ms when the option is
omitted and to the given value otherwise; with `debounceMs = 0` a
trigger of a well-formed email issues the request synchronously in the
same step (the request-issued output is emitted by the trigger step
itself) and schedules no timer; with `debounceMs = d > 0` the trigger
issues nothing and schedules the deferred execution with exactly delay
`d`. -/
theorem c9_theorem (s : HookState) (email : String)
    (hnd : s.disposed = false) (hne : email ≠ "")
    (hat : '@' ∈ email.data) :
    resolvedDebounceMs { debounceMs := none } = 500 ∧
    (∀ n, resolvedDebounceMs { debounceMs := some n } = n) ∧
    (∀ s' outs, step 0 s (Event.trigger email) = some (s', outs) →
      outs = [Out.requestIssued email] ∧ s'.pendingTimer = none ∧
        s'.isValidating = true) ∧
    (∀ d, 0 < d → ∀ s' outs,
      step d s (Event.trigger email) = some (s', outs) →
      outs = [] ∧ s'.pendingTimer = some (email, d) ∧
        s'.inflight = s.inflight) := by
  have hok : ¬(email = "" ∨ '@' ∉ email.data) := by
    rintro (h | h)
    · exact hne h
    · exact h hat
  refine ⟨rfl, fun n => rfl, ?_, ?_⟩
  · intro s' outs hstep
    simp only [step] at hstep
    split at hstep
    · exact Option.noConfusion hstep
    · injection hstep with hstep
      rw [validate_run 0 email s hok (by omega)] at hstep
      have hj := runRequest_proj email { s with pendingTimer := none }
      rw [hstep] at hj
      exact ⟨hj.1, hj.2.1, hj.2.2.1⟩
  · intro d hd s' outs hstep
    simp only [step] at hstep
    split at hstep
    · exact Option.noConfusion hstep
    · injection hstep with hstep
      rw [validate_debounce d email s hok hd] at hstep
      injection hstep with h1 h2
      subst h1
      exact ⟨h2.symm, rfl, rfl⟩

/-- C9 witness: the theorem applied at the initial state and a
well-formed email. -/
theorem c9_witness : resolvedDebounceMs { debounceMs := none } = 500 :=
  (c9_theorem initState "a@x.com" (by decide) (by decide) (by decide)).1

/-! ### Claim C10 -/

/-- C10: `useTruelistConfig` throws an error with an explanatory
(non-empty) message whenever the context value is absent, and returns
exactly the provided configuration — never a null or dummy one — when
inside a provider. -/
theorem c10_theorem :
    useTruelistConfig none = Except.error providerErrorMessage ∧
    providerErrorMessage ≠ "" ∧
    (∀ config, useTruelistConfig (some config) = Except.ok config) :=
  ⟨rfl, by decide, fun _ => rfl⟩

end Truelist
